import Mathlib

/-!
Verification of the SRA_download repository (SRA_download.py, SRA_download_lib.py).

The Python code is shallowly embedded: each library function becomes a Lean
definition over explicit data; external effects are made explicit:
  - a subprocess invocation becomes the command string it would execute;
  - the worker pool becomes the pair (worker count, list of per-sample calls);
  - fallible collaborators (file reading, the metadata service) are passed in
    as Except- or Option-valued data, and an uncaught Python exception is an
    Except.error propagated to the caller.
-/

/-- Whitespace characters recognised by Python str.strip with no argument
(ASCII subset: space, tab, newline, carriage return, vertical tab, form feed). -/
def isPyWhitespace (c : Char) : Bool :=
  c = ' ' || c = '\t' || c = '\n' || c = '\r' || c.toNat = 11 || c.toNat = 12

/-- Python line.strip() as used at SRA_download_lib.py lines 151 and 192:
removes leading AND trailing whitespace. -/
def pythonStrip (s : String) : String :=
  String.mk (((s.data.dropWhile isPyWhitespace).reverse.dropWhile isPyWhitespace).reverse)

/-- Removal of trailing whitespace only (Python rstrip). This definition follows
the SPEC's words ("each equal to the corresponding line with trailing whitespace
removed") and exists only to be compared against pythonStrip, which is what the
source actually applies. -/
def trailingStripOnly (s : String) : String :=
  String.mk ((s.data.reverse.dropWhile isPyWhitespace).reverse)

/-- Python str.split(sep) for a one-character separator, on character lists.
Empty input gives one empty chunk, matching Python "".split(sep) = [""]. -/
def pySplitChar (sep : Char) : List Char → List (List Char)
  | [] => [[]]
  | c :: rest =>
    let r := pySplitChar sep rest
    if c = sep then [] :: r
    else
      match r with
      | [] => [[c]]
      | chunk :: more => (c :: chunk) :: more

/-- Python str.split(sep) for a one-character separator (the source only ever
splits on the default separator ":", a single character). -/
def pySplit (sep : Char) (s : String) : List String :=
  (pySplitChar sep s.data).map String.mk

/-- The dynamic type of the sample_ids argument of download_fastq
(SRA_download_lib.py line 130): a single string or a list of strings. -/
inductive SampleIds where
  | str : String → SampleIds
  | list : List String → SampleIds
deriving DecidableEq

/-- Rendering of sample_ids into the command: a list is joined with spaces
(SRA_download_lib.py lines 153-154), a plain string is used as is. -/
def SampleIds.render : SampleIds → String
  | .str s => s
  | .list l => String.intercalate " " l

/-- The out_dir_parser component of SRA_download_lib.py line 157: the
output-directory flag is produced exactly when out_dir is truthy (non-empty). -/
def out_dir_flag (out_dir : String) : String :=
  if out_dir = "" then "" else "--output-directory " ++ out_dir

/-- download_fastq (SRA_download_lib.py lines 128-163). The file argument, when
present, carries the lines read from the id file; it overrides sample_ids after
stripping each line. The result is the list of subprocess command lines issued
(always exactly one, built by the f-string at line 161). -/
def download_fastq (out_dir : String) (sample_ids : SampleIds)
    (download_methods : String) (file : Option (List String)) : List String :=
  let sample_ids := match file with
    | some lines => SampleIds.list (lines.map pythonStrip)
    | none => sample_ids
  ["kingfisher get --run-identifiers " ++ sample_ids.render ++ " " ++
    out_dir_flag out_dir ++ " --download-methods " ++ download_methods]

/-- One dispatched invocation of download_fastq, i.e. the argument triple of
delayed(download_fastq)(out_dir, sample_id, download_methods) at
SRA_download_lib.py line 200. -/
structure DownloadCall where
  out_dir : String
  sample_id : String
  download_methods : String
deriving DecidableEq

/-- Input resolution of download_fastq_parallel (SRA_download_lib.py lines
190-192): a given file overrides sample_list, each of its lines stripped; the
file read itself may fail (bad path), which propagates as an error. -/
def resolve_samples (file : Option (Except String (List String)))
    (sample_list : List String) : Except String (List String) :=
  match file with
  | some (Except.error e) => Except.error e
  | some (Except.ok lines) => Except.ok (lines.map pythonStrip)
  | none => Except.ok sample_list

/-- download_fastq_parallel (SRA_download_lib.py lines 166-202). Returns the
worker count handed to Parallel(n_jobs=...) together with the list of
per-sample download_fastq invocations, or the uncaught resolution error. -/
def download_fastq_parallel (out_dir : String) (sample_list : List String)
    (download_methods : String) (processes : Nat)
    (file : Option (Except String (List String))) (use_max_processes : Bool) :
    Except String (Nat × List DownloadCall) :=
  match resolve_samples file sample_list with
  | Except.error e => Except.error e
  | Except.ok samples =>
    let processes := if use_max_processes then samples.length else processes
    Except.ok (processes, samples.map fun sample_id =>
      { out_dir := out_dir, sample_id := sample_id, download_methods := download_methods })

/-- The dataset handle returned by get_GEO_info: only its gsms mapping is ever
consumed, and only its keys, in the handle's mapping order
(SRA_download_lib.py line 228). -/
structure GSE where
  gsms : List String

/-- The list comprehension at SRA_download_lib.py line 228: translate every
sample key in order; the first raised translation error propagates. -/
def map_translate (translate : String → Except String String) :
    List String → Except String (List String)
  | [] => Except.ok []
  | g :: rest =>
    match translate g with
    | Except.error e => Except.error e
    | Except.ok v =>
      match map_translate translate rest with
      | Except.error e => Except.error e
      | Except.ok rest2 => Except.ok (v :: rest2)

/-- download_GEO_dataset (SRA_download_lib.py lines 205-238). The metadata
lookup (get_GEO_info) and the per-key translation (gsm_to_srr) are external
collaborators, passed as Except-valued data. The inner call forwards the
already-resolved worker count and leaves file=None and
use_max_processes=False at their defaults (lines 233-238). -/
def download_GEO_dataset (geo : Except String GSE)
    (translate : String → Except String String) (out_dir : String)
    (download_methods : String) (processes : Nat) (use_max_processes : Bool) :
    Except String (Nat × List DownloadCall) :=
  match geo with
  | Except.error e => Except.error e
  | Except.ok gse =>
    match map_translate translate gse.gsms with
    | Except.error e => Except.error e
    | Except.ok sample_ids =>
      let processes := if use_max_processes then sample_ids.length else processes
      download_fastq_parallel out_dir sample_ids download_methods processes none false

/-- The tabular result returned by the metadata service (pysradb sra_metadata):
rows of column-name/value pairs. -/
structure SraDataFrame where
  rows : List (List (String × String))

/-- The pandas accessor df.at[i, col] as used at SRA_download_lib.py lines 104
and 124: the value of column col in row i; none models the untyped KeyError
raised when the row or the column is absent. -/
def SraDataFrame.cell (df : SraDataFrame) (i : Nat) (col : String) : Option String :=
  match df.rows[i]? with
  | none => none
  | some row => (row.find? fun p => p.1 == col).map Prod.snd

/-- gsm_to_srr (SRA_download_lib.py lines 88-105): the run_accession field of
the first row of the metadata result; none models the unhandled lookup error. -/
def gsm_to_srr (sra_metadata : String → SraDataFrame) (gsm : String) : Option String :=
  (sra_metadata gsm).cell 0 "run_accession"

/-- gsm_to_srp (SRA_download_lib.py lines 108-125): the study_accession field of
the first row of the metadata result; none models the unhandled lookup error. -/
def gsm_to_srp (sra_metadata : String → SraDataFrame) (gsm : String) : Option String :=
  (sra_metadata gsm).cell 0 "study_accession"

/-- The CLI option -M, --use_max_processes of SRA_download.py lines 20-23,
declared with the argparse options type=bool, default=False: an omitted option
yields the default False, and a supplied raw value v is converted by Python
bool(v), which is True exactly for a non-empty string. -/
def parse_use_max_processes (arg : Option String) : Bool :=
  match arg with
  | none => false
  | some v => v != ""

/-- The per-element step of list_to_dict (SRA_download_lib.py line 84):
pair.split(split) followed by the unpacking (key, value), which raises an
untyped unpacking error (none) unless the split has exactly two parts. -/
def split_pair (sep : Char) (s : String) : Option (String × String) :=
  match pySplit sep s with
  | [k, v] => some (k, v)
  | _ => none

/-- The inner list comprehension of list_to_dict: split every element, the
first unpacking error propagating. -/
def map_split (sep : Char) : List String → Option (List (String × String))
  | [] => some []
  | s :: rest =>
    match split_pair sep s with
    | none => none
    | some kv =>
      match map_split sep rest with
      | none => none
      | some rest2 => some (kv :: rest2)

/-- Python dict insertion on an insertion-ordered association list: an existing
key is re-bound in place, a new key is appended. This is the semantics of the
dict comprehension at SRA_download_lib.py line 84. -/
def dict_insert : List (String × String) → String × String → List (String × String)
  | [], kv => [kv]
  | p :: rest, kv =>
    if p.1 = kv.1 then (p.1, kv.2) :: rest else p :: dict_insert rest kv

/-- Python dict lookup on the association-list model. -/
def dict_get (d : List (String × String)) (k : String) : Option String :=
  (d.find? fun p => p.1 == k).map Prod.snd

/-- list_to_dict (SRA_download_lib.py lines 73-85): split every string of the
list at the separator and build a dict from the resulting pairs; none models
the untyped unpacking error on a malformed element. The source's default
separator is the single character ":". -/
def list_to_dict (l : List String) (sep : Char) : Option (List (String × String)) :=
  match map_split sep l with
  | none => none
  | some pairs => some (pairs.foldl dict_insert [])

/-- Helper: projecting the sample_id out of the constructed invocation triples
gives back the identifier list. -/
theorem map_sample_id_mk (out m : String) : ∀ samples : List String,
    (samples.map fun sid =>
      ({ out_dir := out, sample_id := sid, download_methods := m } : DownloadCall)).map
        DownloadCall.sample_id = samples
  | [] => rfl
  | a :: t => by simp [map_sample_id_mk out m t]

/-- Claim C1: for every resolved batch, download_fastq_parallel invokes
download_fastq exactly once per identifier, in batch order, passing the same
output directory and the same method list to every invocation; each such
invocation issues exactly one external command. -/
theorem C1_dispatch_once_per_identifier (out m : String) (p : Nat) (u : Bool)
    (file : Option (Except String (List String))) (sl samples : List String)
    (h : resolve_samples file sl = Except.ok samples) :
    ∃ procs calls,
      download_fastq_parallel out sl m p file u = Except.ok (procs, calls) ∧
      calls.map DownloadCall.sample_id = samples ∧
      (∀ c ∈ calls, c.out_dir = out ∧ c.download_methods = m) ∧
      (∀ c ∈ calls,
        (download_fastq c.out_dir (SampleIds.str c.sample_id) c.download_methods none).length
          = 1) := by
  refine ⟨if u then samples.length else p,
    samples.map fun sid => ⟨out, sid, m⟩, ?_, ?_, ?_, ?_⟩
  · simp [download_fastq_parallel, h]
  · exact map_sample_id_mk out m samples
  · intro c hc
    obtain ⟨sid, _, rfl⟩ := List.mem_map.mp hc
    exact ⟨rfl, rfl⟩
  · intro c _
    rfl

/-- Witness for C1 at a concrete batch of two identifiers. -/
theorem C1_dispatch_once_per_identifier_witness :
    resolve_samples none ["s1", "s2"] = Except.ok ["s1", "s2"] ∧
    ∃ procs calls,
      download_fastq_parallel "o" ["s1", "s2"] "m" 3 none false = Except.ok (procs, calls) ∧
      calls.map DownloadCall.sample_id = ["s1", "s2"] := by
  refine ⟨rfl, ?_⟩
  obtain ⟨procs, calls, h1, h2, h3, h4⟩ :=
    C1_dispatch_once_per_identifier "o" "m" 3 false none ["s1", "s2"] ["s1", "s2"] rfl
  exact ⟨procs, calls, h1, h2⟩

/-- Counterexample to claim C2 as stated: the source applies line.strip(),
which also removes LEADING whitespace, so on the file line " A\n" the resolved
identifier is "A", not the trailing-whitespace-only result " A". -/
theorem C2_trailing_only_cex :
    download_fastq_parallel "" [] "m" 1 (some (Except.ok [" A\n"])) false =
      Except.ok (1, [{ out_dir := "", sample_id := "A", download_methods := "m" }]) ∧
    trailingStripOnly " A\n" = " A" ∧ ("A" : String) ≠ " A" := by
  exact ⟨rfl, rfl, by decide⟩

/-- Claim C2 amended: file-based resolution yields exactly one identifier per
line, in file order, each equal to the line with LEADING AND trailing
whitespace removed (Python strip); a blank line yields the empty identifier. -/
theorem C2_file_resolution_strips_both_ends (out m : String) (p : Nat) (u : Bool)
    (lines : List String) (_hne : lines ≠ []) :
    ∃ procs calls,
      download_fastq_parallel out [] m p (some (Except.ok lines)) u = Except.ok (procs, calls) ∧
      calls.length = lines.length ∧
      (∀ i (hi : i < calls.length) (hi2 : i < lines.length),
        calls[i].sample_id = pythonStrip lines[i]) ∧
      pythonStrip "\n" = "" := by
  refine ⟨if u then (lines.map pythonStrip).length else p,
    (lines.map pythonStrip).map fun sid => ⟨out, sid, m⟩, rfl, ?_, ?_, rfl⟩
  · simp
  · intro i hi hi2
    simp

/-- Witness for C2 amended at a concrete two-line file with one blank line. -/
theorem C2_file_resolution_strips_both_ends_witness :
    (["SRR001\n", "\n"] : List String) ≠ [] ∧
    ∃ procs calls,
      download_fastq_parallel "" [] "m" 1 (some (Except.ok ["SRR001\n", "\n"])) false =
        Except.ok (procs, calls) ∧ calls.length = 2 := by
  refine ⟨by decide, ?_⟩
  obtain ⟨procs, calls, h1, h2, h3, h4⟩ :=
    C2_file_resolution_strips_both_ends "" "m" 1 false ["SRR001\n", "\n"] (by decide)
  exact ⟨procs, calls, h1, by simp [h2]⟩

/-- Claim C3: the worker count handed to the pool is the batch size when
use_max_processes is set, regardless of the configured processes value, and is
exactly the configured processes value when the flag is clear (never clamped
to the batch size). -/
theorem C3_effective_worker_count (out m : String) (p : Nat)
    (file : Option (Except String (List String))) (sl samples : List String)
    (h : resolve_samples file sl = Except.ok samples) :
    (∃ calls, download_fastq_parallel out sl m p file true =
      Except.ok (samples.length, calls)) ∧
    (∃ calls, download_fastq_parallel out sl m p file false =
      Except.ok (p, calls)) := by
  constructor
  · exact ⟨samples.map fun sid => ⟨out, sid, m⟩, by simp [download_fastq_parallel, h]⟩
  · exact ⟨samples.map fun sid => ⟨out, sid, m⟩, by simp [download_fastq_parallel, h]⟩

/-- Witness for C3: a batch of 2 with 5 requested workers keeps 5 workers
without the flag and takes 2 with it. -/
theorem C3_effective_worker_count_witness :
    (∃ calls, download_fastq_parallel "o" ["a", "b"] "m" 5 none true =
      Except.ok (2, calls)) ∧
    (∃ calls, download_fastq_parallel "o" ["a", "b"] "m" 5 none false =
      Except.ok (5, calls)) := by
  have h := C3_effective_worker_count "o" "m" 5 none ["a", "b"] ["a", "b"] rfl
  exact ⟨h.1, h.2⟩

/-- Claim C4: when both a file and an in-memory sample list are supplied, the
dispatched identifiers come from the file and the list is ignored entirely. -/
theorem C4_file_overrides_list (out m : String) (p : Nat) (u : Bool)
    (lines l1 l2 : List String) :
    download_fastq_parallel out l1 m p (some (Except.ok lines)) u =
      download_fastq_parallel out l2 m p (some (Except.ok lines)) u ∧
    ∃ procs calls,
      download_fastq_parallel out l1 m p (some (Except.ok lines)) u =
        Except.ok (procs, calls) ∧
      calls.map DownloadCall.sample_id = lines.map pythonStrip := by
  refine ⟨rfl, if u then (lines.map pythonStrip).length else p,
    (lines.map pythonStrip).map fun sid => ⟨out, sid, m⟩, rfl, ?_⟩
  simp [List.map_map, Function.comp]

/-- Counterexample to claim C9 as stated: supplying the EMPTY string as the
option value also parses to false, so false does not occur only when the
option is omitted. -/
theorem C9_flag_false_only_when_omitted_cex :
    parse_use_max_processes (some "") = false ∧ some "" ≠ (none : Option String) := by
  exact ⟨rfl, by decide⟩

/-- Claim C9 amended: the parsed flag is the Python truthiness of the supplied
value, hence true for every non-empty value including the string "False", and
false exactly when the option is omitted or supplied with the empty string. -/
theorem C9_use_max_flag_truthiness :
    (∀ s : String, parse_use_max_processes (some s) = (s != "")) ∧
    parse_use_max_processes none = false ∧
    parse_use_max_processes (some "False") = true := by
  exact ⟨fun s => rfl, rfl, by decide⟩

/-- Helper: when every key translates successfully, the list comprehension
returns exactly the translations, in key order. -/
theorem map_translate_ok (translate : String → Except String String) (f : String → String) :
    ∀ gsms : List String, (∀ g ∈ gsms, translate g = Except.ok (f g)) →
      map_translate translate gsms = Except.ok (gsms.map f)
  | [], _ => rfl
  | g :: rest, h => by
    have hg := h g (List.mem_cons_self g rest)
    have hr := map_translate_ok translate f rest fun x hx => h x (List.mem_cons_of_mem g hx)
    simp [map_translate, hg, hr]

/-- Claim C5: dataset expansion translates every sample key of the handle
exactly once, in the handle's mapping order, and dispatches exactly as many
jobs as there are sample keys. -/
theorem C5_expansion_once_per_key (out m : String) (p : Nat) (u : Bool)
    (gsms : List String) (translate : String → Except String String) (f : String → String)
    (h : ∀ g ∈ gsms, translate g = Except.ok (f g)) :
    ∃ procs calls,
      download_GEO_dataset (Except.ok ⟨gsms⟩) translate out m p u = Except.ok (procs, calls) ∧
      calls.map DownloadCall.sample_id = gsms.map f ∧
      calls.length = gsms.length := by
  have ht := map_translate_ok translate f gsms h
  refine ⟨if u then (gsms.map f).length else p,
    (gsms.map f).map fun sid => ⟨out, sid, m⟩, ?_, ?_, ?_⟩
  · simp [download_GEO_dataset, ht, download_fastq_parallel, resolve_samples]
  · exact map_sample_id_mk out m (gsms.map f)
  · simp

/-- Witness for C5: a stub handle with 3 sample keys yields exactly 3 jobs. -/
theorem C5_expansion_once_per_key_witness :
    ∃ procs calls,
      download_GEO_dataset (Except.ok ⟨["g1", "g2", "g3"]⟩)
        (fun g => Except.ok ("S" ++ g)) "o" "m" 2 false = Except.ok (procs, calls) ∧
      calls.length = 3 := by
  obtain ⟨procs, calls, h1, h2, h3⟩ :=
    C5_expansion_once_per_key "o" "m" 2 false ["g1", "g2", "g3"]
      (fun g => Except.ok ("S" ++ g)) (fun g => "S" ++ g) (fun g _ => rfl)
  exact ⟨procs, calls, h1, by simp [h3]⟩

/-- Claim C6: the single-sample download issues exactly one external command;
the command contains the identifier and the method list verbatim, and the
output-directory flag component is present exactly when a directory was
given (empty out_dir produces no flag). -/
theorem C6_single_invocation (out ids m : String) :
    ∃ cmd, download_fastq out (SampleIds.str ids) m none = [cmd] ∧
      (∃ a b : String, cmd = a ++ ids ++ b) ∧
      (∃ a : String, cmd = a ++ m) ∧
      (out = "" → out_dir_flag out = "") ∧
      (out ≠ "" → out_dir_flag out = "--output-directory " ++ out ∧
        ∃ a b : String, cmd = a ++ ("--output-directory " ++ out) ++ b) := by
  refine ⟨"kingfisher get --run-identifiers " ++ ids ++ " " ++ out_dir_flag out ++
      " --download-methods " ++ m, rfl, ?_, ?_, ?_, ?_⟩
  · exact ⟨"kingfisher get --run-identifiers ",
      " " ++ out_dir_flag out ++ " --download-methods " ++ m,
      by simp [String.append_assoc]⟩
  · exact ⟨"kingfisher get --run-identifiers " ++ ids ++ " " ++ out_dir_flag out ++
      " --download-methods ", rfl⟩
  · intro h
    simp [out_dir_flag, h]
  · intro h
    refine ⟨by simp [out_dir_flag, h],
      "kingfisher get --run-identifiers " ++ ids ++ " ", " --download-methods " ++ m, ?_⟩
    rw [out_dir_flag, if_neg h]
    simp [String.append_assoc]

/-- Witness for C6 at a concrete sample, directory and method list. -/
theorem C6_single_invocation_witness :
    ∃ cmd, download_fastq "d" (SampleIds.str "SRR1") "ena-ftp" none = [cmd] ∧
      (∃ a b : String, cmd = a ++ "SRR1" ++ b) ∧
      (∃ a b : String, cmd = a ++ ("--output-directory " ++ "d") ++ b) := by
  obtain ⟨cmd, h1, h2, h3, h4, h5⟩ := C6_single_invocation "d" "SRR1" "ena-ftp"
  exact ⟨cmd, h1, h2, (h5 (by decide)).2⟩

/-- Claim C7: gsm_to_srr and gsm_to_srp return the run_accession respectively
study_accession field of the FIRST row of the metadata result, and produce the
unhandled-error outcome (none) when the result has no rows or the first row
lacks the column. -/
theorem C7_first_row_scalar_lookup (db : String → SraDataFrame) (gsm : String) :
    (∀ row rest, (db gsm).rows = row :: rest →
      gsm_to_srr db gsm = (row.find? fun p => p.1 == "run_accession").map Prod.snd ∧
      gsm_to_srp db gsm = (row.find? fun p => p.1 == "study_accession").map Prod.snd) ∧
    ((db gsm).rows = [] →
      gsm_to_srr db gsm = none ∧ gsm_to_srp db gsm = none) := by
  constructor
  · intro row rest h
    constructor <;> simp [gsm_to_srr, gsm_to_srp, SraDataFrame.cell, h]
  · intro h
    constructor <;> simp [gsm_to_srr, gsm_to_srp, SraDataFrame.cell, h]

/-- Witness for C7 at a concrete one-row metadata result. -/
theorem C7_first_row_scalar_lookup_witness :
    gsm_to_srr (fun _ => ⟨[[("run_accession", "SRR9"), ("study_accession", "SRP7")]]⟩)
      "GSM1" = some "SRR9" ∧
    gsm_to_srp (fun _ => ⟨[[("run_accession", "SRR9"), ("study_accession", "SRP7")]]⟩)
      "GSM1" = some "SRP7" := by
  have h := (C7_first_row_scalar_lookup
    (fun _ => ⟨[[("run_accession", "SRR9"), ("study_accession", "SRP7")]]⟩) "GSM1").1
    [("run_accession", "SRR9"), ("study_accession", "SRP7")] [] rfl
  exact ⟨h.1.trans (by decide), h.2.trans (by decide)⟩

/-- Helper: the list comprehension propagates the error of the first failing
translation when all keys before it succeed. -/
theorem map_translate_first_error (translate : String → Except String String) (e : String) :
    ∀ (pre : List String) (k : String) (post : List String),
      (∀ g ∈ pre, ∃ v, translate g = Except.ok v) → translate k = Except.error e →
      map_translate translate (pre ++ k :: post) = Except.error e
  | [], k, post, _, hk => by simp [map_translate, hk]
  | g :: pre, k, post, h, hk => by
    obtain ⟨v, hv⟩ := h g (List.mem_cons_self g pre)
    have ih := map_translate_first_error translate e pre k post
      (fun x hx => h x (List.mem_cons_of_mem g hx)) hk
    simp [map_translate, hv, ih]

/-- Claim C8: a failing resolution (unreadable file, failed metadata lookup, or
a failing key translation) propagates uncaught as the same error and no
single-sample invocation is dispatched. -/
theorem C8_resolution_failure_aborts (out m : String) (p : Nat) (u : Bool) (e : String)
    (sl : List String) (translate : String → Except String String)
    (pre post : List String) (k : String)
    (hpre : ∀ g ∈ pre, ∃ v, translate g = Except.ok v)
    (hk : translate k = Except.error e) :
    (download_fastq_parallel out sl m p (some (Except.error e)) u = Except.error e ∧
      ∀ procs calls, download_fastq_parallel out sl m p (some (Except.error e)) u ≠
        Except.ok (procs, calls)) ∧
    download_GEO_dataset (Except.error e) translate out m p u = Except.error e ∧
    (download_GEO_dataset (Except.ok ⟨pre ++ k :: post⟩) translate out m p u =
        Except.error e ∧
      ∀ procs calls, download_GEO_dataset (Except.ok ⟨pre ++ k :: post⟩) translate out m p u ≠
        Except.ok (procs, calls)) := by
  have ht := map_translate_first_error translate e pre k post hpre hk
  have h1 : download_fastq_parallel out sl m p (some (Except.error e)) u =
      Except.error e := rfl
  have h3 : download_GEO_dataset (Except.ok ⟨pre ++ k :: post⟩) translate out m p u =
      Except.error e := by simp [download_GEO_dataset, ht]
  refine ⟨⟨h1, ?_⟩, rfl, h3, ?_⟩
  · intro procs calls hcon
    rw [h1] at hcon
    simp at hcon
  · intro procs calls hcon
    rw [h3] at hcon
    simp at hcon

/-- Witness for C8: a bad file path aborts dispatch, and a dataset whose second
key fails to translate aborts with that error. -/
theorem C8_resolution_failure_aborts_witness :
    download_fastq_parallel "o" ["x"] "m" 2 (some (Except.error "boom")) false =
      Except.error "boom" ∧
    download_GEO_dataset (Except.ok ⟨["g1", "g2"]⟩)
      (fun g => if g = "g1" then Except.ok "SRR1" else Except.error "boom")
      "o" "m" 2 false = Except.error "boom" := by
  have h := C8_resolution_failure_aborts "o" "m" 2 false "boom" ["x"]
    (fun g => if g = "g1" then Except.ok "SRR1" else Except.error "boom")
    ["g1"] [] "g2"
    (fun g hg => ⟨"SRR1", by simp at hg; subst hg; rfl⟩) rfl
  exact ⟨h.1.1, h.2.2.1⟩

/-- Helper: find? over an appended list inspects the left part first. -/
theorem findq_append {α : Type} (f : α → Bool) : ∀ l1 l2 : List α,
    (l1 ++ l2).find? f =
      match l1.find? f with
      | some x => some x
      | none => l2.find? f
  | [], l2 => by simp [List.find?]
  | a :: l1, l2 => by
    cases hfa : f a with
    | true => simp [List.find?, hfa]
    | false => simp [List.find?, hfa, findq_append f l1 l2]

/-- Helper: dict lookup on a cons cell inspects the head key first. -/
theorem dict_get_cons (p : String × String) (d : List (String × String)) (k : String) :
    dict_get (p :: d) k = if p.1 = k then some p.2 else dict_get d k := by
  by_cases h : p.1 = k
  · have hb : (p.1 == k) = true := by simp [h]
    simp [dict_get, List.find?, hb, h]
  · have hb : (p.1 == k) = false := by simp [h]
    simp [dict_get, List.find?, hb, h]

/-- Helper: looking a key up after one dict insertion sees the inserted value
exactly when the keys agree. -/
theorem dict_get_insert : ∀ (d : List (String × String)) (kv : String × String) (k : String),
    dict_get (dict_insert d kv) k = if kv.1 = k then some kv.2 else dict_get d k
  | [], kv, k => by
    simp only [dict_insert]
    rw [dict_get_cons]
  | p :: rest, kv, k => by
    by_cases h1 : p.1 = kv.1
    · simp only [dict_insert, if_pos h1]
      rw [dict_get_cons, dict_get_cons]
      by_cases h2 : kv.1 = k
      · rw [if_pos (h1.trans h2), if_pos h2]
      · have hp : ¬ p.1 = k := fun hh => h2 (h1.symm.trans hh)
        rw [if_neg hp, if_neg h2, if_neg hp]
    · simp only [dict_insert, if_neg h1]
      rw [dict_get_cons, dict_get_insert rest kv k, dict_get_cons]
      by_cases h2 : p.1 = k
      · have hkv : ¬ kv.1 = k := fun hh => h1 (h2.trans hh.symm)
        rw [if_pos h2, if_neg hkv, if_pos h2]
      · rw [if_neg h2, if_neg h2]

/-- Helper: folding dict insertions over a pair list makes a lookup return the
LAST bound value of the key, i.e. the first match in the reversed pair list. -/
theorem dict_get_foldl : ∀ (ps d : List (String × String)) (k : String),
    dict_get (ps.foldl dict_insert d) k =
      match ps.reverse.find? (fun p => p.1 == k) with
      | some pr => some pr.2
      | none => dict_get d k
  | [], d, k => by simp
  | p :: ps, d, k => by
    have ih := dict_get_foldl ps (dict_insert d p) k
    rw [List.foldl_cons, ih, List.reverse_cons, findq_append]
    cases hf : ps.reverse.find? (fun q => q.1 == k) with
    | some pr => simp [hf]
    | none =>
      by_cases h : p.1 = k
      · have hb : (p.1 == k) = true := by simp [h]
        simp [List.find?, hb, dict_get_insert, h]
      · have hb : (p.1 == k) = false := by simp [h]
        simp [List.find?, hb, dict_get_insert, h]

/-- Helper: one element splits-and-unpacks without error exactly when the split
has exactly two parts. -/
theorem split_pair_none_iff (sep : Char) (s : String) :
    split_pair sep s = none ↔ (pySplit sep s).length ≠ 2 := by
  unfold split_pair
  rcases h : pySplit sep s with _ | ⟨a, _ | ⟨b, _ | ⟨c, t⟩⟩⟩ <;> simp

/-- Helper: the splitting comprehension errors exactly when some element fails
to split-and-unpack. -/
theorem map_split_none_iff (sep : Char) : ∀ l : List String,
    map_split sep l = none ↔ ∃ s ∈ l, split_pair sep s = none
  | [] => by simp [map_split]
  | s :: rest => by
    have ih := map_split_none_iff sep rest
    cases hs : split_pair sep s with
    | none =>
      refine iff_of_true (by simp [map_split, hs]) ⟨s, List.mem_cons_self s rest, hs⟩
    | some kv =>
      cases hr : map_split sep rest with
      | none =>
        obtain ⟨x, hxmem, hxnone⟩ := ih.mp hr
        refine iff_of_true (by simp [map_split, hs, hr])
          ⟨x, List.mem_cons_of_mem s hxmem, hxnone⟩
      | some rest2 =>
        refine iff_of_false (by simp [map_split, hs, hr]) ?_
        rintro ⟨x, hxmem, hxnone⟩
        rcases List.mem_cons.mp hxmem with rfl | hxr
        · rw [hs] at hxnone
          simp at hxnone
        · have : map_split sep rest = none := ih.mpr ⟨x, hxr, hxnone⟩
          rw [hr] at this
          simp at this

/-- Claim C10: list_to_dict errors (none) exactly when some input string does
not split on the separator into exactly two parts; otherwise it returns a
mapping in which a repeated key is silently bound to its LAST occurrence, with
no error on duplicates. -/
theorem C10_list_to_dict_unpack_and_override (l : List String) (sep : Char) :
    (list_to_dict l sep = none ↔ ∃ s ∈ l, (pySplit sep s).length ≠ 2) ∧
    (∀ pairs, map_split sep l = some pairs →
      list_to_dict l sep = some (pairs.foldl dict_insert []) ∧
      ∀ k, dict_get (pairs.foldl dict_insert []) k =
        (pairs.reverse.find? fun p => p.1 == k).map Prod.snd) := by
  constructor
  · constructor
    · intro h
      cases hm : map_split sep l with
      | none =>
        obtain ⟨s, hs, hnone⟩ := (map_split_none_iff sep l).mp hm
        exact ⟨s, hs, (split_pair_none_iff sep s).mp hnone⟩
      | some pairs => simp [list_to_dict, hm] at h
    · rintro ⟨s, hs, hlen⟩
      have hm : map_split sep l = none :=
        (map_split_none_iff sep l).mpr ⟨s, hs, (split_pair_none_iff sep s).mpr hlen⟩
      simp [list_to_dict, hm]
  · intro pairs hp
    refine ⟨by simp [list_to_dict, hp], fun k => ?_⟩
    rw [dict_get_foldl]
    cases hf : pairs.reverse.find? (fun p => p.1 == k) <;> simp [hf, dict_get, List.find?]

/-- Witness for C10: a duplicate key is bound to its last occurrence with no
error. -/
theorem C10_list_to_dict_unpack_and_override_witness :
    list_to_dict ["a:1", "b:2", "a:3"] ':' =
      some ([("a", "1"), ("b", "2"), ("a", "3")].foldl dict_insert []) ∧
    dict_get ([("a", "1"), ("b", "2"), ("a", "3")].foldl dict_insert []) "a" = some "3" := by
  have h := (C10_list_to_dict_unpack_and_override ["a:1", "b:2", "a:3"] ':').2
    [("a", "1"), ("b", "2"), ("a", "3")] (by decide)
  exact ⟨h.1, (h.2 "a").trans (by decide)⟩
